import Mathlib

/-!
Verification of the market-data aggregation subsystem of the
ai-optimize-wealth-strategist repository.

The Python sources embedded here are:
* `src/data/market_data_service.py` — `MarketDataService.get_comprehensive_market_data`
  and `MarketDataService._structure_market_data` (the aggregator and structuring stage);
* `src/agents/market_data/base_agent.py` — `MarketDataAgent._rate_limit_check`,
  `_cache_get`, `_cache_set`;
* `src/agents/news/newsapi_us_agent.py` — `NewsAPIUSAgent.search_news` and the
  sentiment helpers;
* `src/agents/news/finnhub_agent.py` — `FinnhubAgent.get_company_news`;
* `src/agents/market_data/polygon_agent.py` — `PolygonAgent.get_stock_data`.

Python dicts with string keys are modelled as association lists (`Dict`),
numbers as `ℚ` (all arithmetic the claims touch is exact in the source's
value range), timestamps as `ℚ` seconds, and calendar days as `ℤ` day
numbers with day 0 a Monday (Python's `weekday()` has Monday = 0).
Fallible provider calls are `Except String`.
-/

namespace WealthSpec

/-- Association-list view of a Python dict with string keys. -/
abbrev Dict (α : Type) := List (String × α)

/-- `d[k]` lookup returning the first binding, like a Python dict key lookup
(Python dicts have unique keys; the structuring code only ever inserts a key
once per dict, so first-binding lookup agrees). -/
def dictLookup {α : Type} (d : Dict α) (k : String) : Option α :=
  (d.find? (fun p => p.1 = k)).map Prod.snd

/-- `d.get(k, dflt)` — lookup with a default, as Python `dict.get`. -/
def dictGetD {α : Type} (d : Dict α) (k : String) (dflt : α) : α :=
  (dictLookup d k).getD dflt

/-- `d[k] = v` — Python dict assignment: overwrite in place if the key
exists (insertion order preserved), else append a new binding. -/
def dictSet {α : Type} (d : Dict α) (k : String) (v : α) : Dict α :=
  if (dictLookup d k).isSome then
    d.map (fun p => if p.1 = k then (k, v) else p)
  else d ++ [(k, v)]

/-- Python `round(x, 1)`: round to one decimal digit.  Mathlib's `round` is
round-half-up while CPython rounds half to even on binary floats; the two
agree except on exact halves, which no theorem below depends on. -/
def round1 (q : ℚ) : ℚ := (round (10 * q) : ℤ) / 10

/-- Python `round(x, 2)`: round to two decimal digits (same caveat as `round1`). -/
def round2 (q : ℚ) : ℚ := (round (100 * q) : ℤ) / 100

/-! ## Sentiment combination (`_structure_market_data`, lines 324–364) -/

/-- One provider's sentiment tally, as produced by
`_calculate_sentiment_summary` (the combiner reads only the three raw
counts, via `data.get("positive", 0)` etc.). -/
structure SentimentCounts where
  positive : ℕ
  negative : ℕ
  neutral : ℕ
deriving DecidableEq, Repr

/-- `total_positive = sum(data.get("positive", 0) for data in all_sentiment_data)`. -/
def totalPositive (ds : List SentimentCounts) : ℕ := (ds.map (fun d => d.positive)).sum

/-- `total_negative = sum(data.get("negative", 0) for data in all_sentiment_data)`. -/
def totalNegative (ds : List SentimentCounts) : ℕ := (ds.map (fun d => d.negative)).sum

/-- `total_neutral = sum(data.get("neutral", 0) for data in all_sentiment_data)`. -/
def totalNeutral (ds : List SentimentCounts) : ℕ := (ds.map (fun d => d.neutral)).sum

/-- `total_articles = total_positive + total_negative + total_neutral`. -/
def totalArticles (ds : List SentimentCounts) : ℕ :=
  totalPositive ds + totalNegative ds + totalNeutral ds

/-- `positive_percent = (total_positive / total_articles) * 100` (line 332).
The source evaluates this only under `total_articles > 0`; `ℚ` division by
zero yields 0, which is never relied on. -/
def positivePercent (ds : List SentimentCounts) : ℚ :=
  (totalPositive ds : ℚ) / (totalArticles ds : ℚ) * 100

/-- `negative_percent = (total_negative / total_articles) * 100` (line 333). -/
def negativePercent (ds : List SentimentCounts) : ℚ :=
  (totalNegative ds : ℚ) / (totalArticles ds : ℚ) * 100

/-- `neutral_percent = (total_neutral / total_articles) * 100` (line 334). -/
def neutralPercent (ds : List SentimentCounts) : ℚ :=
  (totalNeutral ds : ℚ) / (totalArticles ds : ℚ) * 100

/-- The `news_sentiment` dict written by the structuring stage: rounded
percentages plus the overall label string. -/
structure SentimentSummary where
  positive : ℚ
  neutral : ℚ
  negative : ℚ
  overall : String
deriving DecidableEq, Repr

/-- Lines 325–364 of `_structure_market_data`: combine the providers'
tallies.  The overall label compares only `positive_percent` against
`negative_percent` (lines 337–342); both empty-input branches write the
same all-zero `"Neutral"` summary. -/
def combineSentiment (ds : List SentimentCounts) : SentimentSummary :=
  if ¬ ds.isEmpty then
    if 0 < totalArticles ds then
      { positive := round1 (positivePercent ds)
        neutral := round1 (neutralPercent ds)
        negative := round1 (negativePercent ds)
        overall :=
          if positivePercent ds > negativePercent ds then "Positive"
          else if negativePercent ds > positivePercent ds then "Negative"
          else "Neutral" }
    else { positive := 0, neutral := 0, negative := 0, overall := "Neutral" }
  else { positive := 0, neutral := 0, negative := 0, overall := "Neutral" }

/-! ## News articles and the per-provider collection loops
(`get_comprehensive_market_data`, lines 114–183) -/

/-- An article as parsed by `NewsAPIUSAgent.search_news` (lines 104–114 of
`newsapi_us_agent.py`).  Display-only fields (`published_at`, `source`) are
omitted; the pipeline never reads them. -/
structure NAArticle where
  title : String
  description : String
  url : String
  content : String
  sentiment : String
deriving DecidableEq, Repr

/-- An article as parsed by `FinnhubAgent.get_company_news` (lines 101–114
of `finnhub_agent.py`).  Display-only fields (`category`, `datetime`,
`source`, `related`, `image`, `published_at`) are omitted. -/
structure FHArticle where
  id : ℕ
  headline : String
  summary : String
  url : String
  sentiment : String
deriving DecidableEq, Repr

/-- The dict view of an article inside the aggregator after tagging with
`related_ticker` (and, for NewsAPI articles, `search_term`).  Keys a given
provider's parse never writes read back through `dict.get(key, "")` as the
empty string; those defaults are materialised by the two tagging functions
below. -/
structure TaggedArticle where
  title : String
  description : String
  content : String
  url : String
  headline : String
  summary : String
  idStr : String
  sentiment : String
  relatedTicker : String
  searchTerm : String
deriving DecidableEq, Repr

/-- Tag a NewsAPI article (lines 145–146): `article["related_ticker"] = symbol`,
`article["search_term"] = term`.  Finnhub-only keys are absent, hence `""`
under `dict.get(key, "")`. -/
def naTag (a : NAArticle) (symbol term : String) : TaggedArticle :=
  { title := a.title, description := a.description, content := a.content,
    url := a.url, headline := "", summary := "", idStr := "",
    sentiment := a.sentiment, relatedTicker := symbol, searchTerm := term }

/-- Tag a Finnhub article (line 172): `article["related_ticker"] = symbol`.
NewsAPI-only keys (`title`, `description`, `content`, `search_term`) are
absent, hence `""` under `dict.get(key, "")`. -/
def fhTag (a : FHArticle) (symbol : String) : TaggedArticle :=
  { title := "", description := "", content := "", url := a.url,
    headline := a.headline, summary := a.summary, idStr := toString a.id,
    sentiment := a.sentiment, relatedTicker := symbol, searchTerm := "" }

/-- Line 143: `article_id = f"{article.get('title', '')}_{article.get('url', '')}"`. -/
def naKey (a : NAArticle) : String := a.title ++ "_" ++ a.url

/-- Line 170: `article_id = f"{article.get('id', '')}_{article.get('headline', '')}"`. -/
def fhKey (a : FHArticle) : String := toString a.id ++ "_" ++ a.headline

/-- The `company_names` search-term table (lines 120–131). -/
def companyNames : Dict (List String) :=
  [("AAPL", ["Apple", "Apple Inc", "iPhone", "iPad", "Mac"]),
   ("MSFT", ["Microsoft", "Microsoft Corporation", "Windows", "Office", "Azure"]),
   ("GOOGL", ["Google", "Alphabet", "YouTube", "Android", "Chrome"]),
   ("TSLA", ["Tesla", "Tesla Inc", "Elon Musk"]),
   ("NVDA", ["NVIDIA", "NVIDIA Corporation", "GPU"]),
   ("AMZN", ["Amazon", "Amazon.com", "AWS"]),
   ("META", ["Meta", "Facebook", "Instagram", "WhatsApp"]),
   ("NFLX", ["Netflix", "Netflix Inc"]),
   ("JPM", ["JPMorgan", "JPMorgan Chase", "JP Morgan"]),
   ("JNJ", ["Johnson & Johnson", "J&J"])]

/-- One dedup step of the NewsAPI collection loop (lines 142–148): skip the
article if its `(title, url)` key was seen, else append it (tagged) and
record the key.  The accumulator is `(ticker_news, seen_articles)`. -/
def naStep (symbol term : String) (acc : List TaggedArticle × List String)
    (a : NAArticle) : List TaggedArticle × List String :=
  if naKey a ∈ acc.2 then acc
  else (acc.1 ++ [naTag a symbol term], acc.2 ++ [naKey a])

/-- The body of the NewsAPI US per-symbol loop (lines 133–148): take the
first two search terms from `company_names` (default `[symbol]`), call
`search_news(term, page_size=6, from_date, to_date)` for each, and fold the
returned articles through the dedup step.  Erroneous or article-less search
results are skipped (line 140). -/
def naSymbolStep (search : String → ℕ → ℤ → ℤ → Except String (List NAArticle))
    (window : ℤ × ℤ) (acc : List TaggedArticle × List String) (symbol : String) :
    List TaggedArticle × List String :=
  (((dictLookup companyNames symbol).getD [symbol]).take 2).foldl
    (fun acc term =>
      match search term 6 window.1 window.2 with
      | .ok arts => arts.foldl (naStep symbol term) acc
      | .error _ => acc) acc

/-- The NewsAPI US collection loop (lines 114–148): accumulate deduplicated
tagged articles over all symbols, starting from empty `ticker_news` and
`seen_articles`. -/
def naCollect (search : String → ℕ → ℤ → ℤ → Except String (List NAArticle))
    (window : ℤ × ℤ) (symbols : List String) : List TaggedArticle :=
  (symbols.foldl (naSymbolStep search window)
    (([], []) : List TaggedArticle × List String)).1

/-- One dedup step of the Finnhub collection loop (lines 169–174), keyed by
`(id, headline)`. -/
def fhStep (symbol : String) (acc : List TaggedArticle × List String)
    (a : FHArticle) : List TaggedArticle × List String :=
  if fhKey a ∈ acc.2 then acc
  else (acc.1 ++ [fhTag a symbol], acc.2 ++ [fhKey a])

/-- The body of the Finnhub per-symbol loop (lines 164–174): one
`get_company_news(symbol, from_date, to_date)` call, folding its articles
through the dedup step; erroneous or article-less results are skipped. -/
def fhSymbolStep (companyNews : String → ℤ → ℤ → Except String (List FHArticle))
    (window : ℤ × ℤ) (acc : List TaggedArticle × List String) (symbol : String) :
    List TaggedArticle × List String :=
  match companyNews symbol window.1 window.2 with
  | .ok arts => arts.foldl (fhStep symbol) acc
  | .error _ => acc

/-- The Finnhub collection loop (lines 159–174), with deduplication by
`(id, headline)`. -/
def fhCollect (companyNews : String → ℤ → ℤ → Except String (List FHArticle))
    (window : ℤ × ℤ) (symbols : List String) : List TaggedArticle :=
  (symbols.foldl (fhSymbolStep companyNews window)
    (([], []) : List TaggedArticle × List String)).1

/-! ## Weekend date window (`get_comprehensive_market_data`, lines 75–90)

Calendar days are `ℤ` day numbers with day 0 a Monday, so that
`weekday n = n % 7` matches Python's `datetime.weekday()`
(Monday = 0 … Sunday = 6); `timedelta(days=k)` is subtraction of `k`. -/

/-- `now.weekday()`.  Lean's `%` on `ℤ` is Euclidean remainder, which for
the positive modulus 7 agrees with Python's `%`. -/
def weekday (now : ℤ) : ℤ := now % 7

/-- `is_weekend = now.weekday() >= 5` (line 78). -/
def isWeekend (now : ℤ) : Bool := weekday now ≥ 5

/-- Lines 80–90: the `(from_date, to_date)` pair handed to every
date-bounded (news) provider call.  On a weekend, `days_since_friday =
(now.weekday() - 4) % 7`, `last_friday = now - days_since_friday`, and the
window is `[last_friday - 7, last_friday]`; on a weekday it is
`[now - 7, now]`. -/
def dateWindow (now : ℤ) : ℤ × ℤ :=
  if isWeekend now then
    let daysSinceFriday := (weekday now - 4) % 7
    let lastFriday := now - daysSinceFriday
    (lastFriday - 7, lastFriday)
  else
    (now - 7, now)

/-! ## Relevance filtering (`_structure_market_data`, lines 245–269) -/

/-- `p` is a prefix of `l`, as a boolean on character lists. -/
def charsStartWith : List Char → List Char → Bool
  | [], _ => true
  | _ :: _, [] => false
  | a :: p, b :: l => a = b && charsStartWith p l

/-- Python's substring test `needle in hay` on strings. -/
def strHasSub (hay needle : String) : Bool :=
  let rec go (l : List Char) : Bool :=
    match l with
    | [] => charsStartWith needle.data []
    | _ :: t => charsStartWith needle.data l || go t
  go hay.data

/-- Python's `str.lower()` (character-wise lowering; the keyword tables and
ticker symbols are ASCII, where the two agree). -/
def strToLower (s : String) : String := String.mk (s.data.map Char.toLower)

/-- The `company_keywords` table (lines 252–263). -/
def companyKeywords : Dict (List String) :=
  [("AAPL", ["apple", "iphone", "ipad", "mac", "tim cook", "ios"]),
   ("MSFT", ["microsoft", "windows", "office", "azure", "satya nadella", "xbox"]),
   ("GOOGL", ["google", "alphabet", "youtube", "android", "chrome", "sundar pichai"]),
   ("TSLA", ["tesla", "elon musk", "model s", "model 3", "cybertruck"]),
   ("NVDA", ["nvidia", "gpu", "jensen huang", "rtx", "ai chips"]),
   ("AMZN", ["amazon", "aws", "jeff bezos", "prime", "echo"]),
   ("META", ["meta", "facebook", "instagram", "mark zuckerberg", "whatsapp"]),
   ("NFLX", ["netflix", "streaming", "ted sarandos"]),
   ("JPM", ["jpmorgan", "jp morgan", "jamie dimon", "chase"]),
   ("JNJ", ["johnson & johnson", "j&j", "pharmaceuticals"])]

/-- `validate_company_relevance(article, ticker)` (lines 245–269): lowercase
`title`, `description` and `content`, join them with single spaces, and
accept when any keyword for the ticker (default `[ticker.lower()]`) occurs
as a substring. -/
def validateCompanyRelevance (a : TaggedArticle) (ticker : String) : Bool :=
  let text := strToLower a.title ++ " " ++ strToLower a.description
    ++ " " ++ strToLower a.content
  let keywords := (dictLookup companyKeywords ticker).getD [strToLower ticker]
  keywords.any (fun kw => strHasSub text kw)

/-! ## Provider payloads and the raw result collection -/

/-- The per-symbol dict built by `YFinanceAgent.get_stock_data`
(lines 67–91 of `yfinance_agent.py`), restricted to the keys the
structuring stage reads.  Every field can be Python `None` (`info.get`
misses); `none` models a stored `None`.  A per-symbol error dict
(line 98) carries none of these keys, and since the structuring stage
reads them only through `dict.get(key, 0)` it behaves exactly like a
quote whose fields are all `some 0`. -/
structure YfQuote where
  currentPrice : Option ℚ
  priceChange1d : Option ℚ
  volume : Option ℚ
  marketCap : Option ℚ
  peRatio : Option ℚ
deriving DecidableEq, Repr

/-- The dict returned by `YFinanceAgent.get_portfolio_data` (lines 100–111):
`portfolio` maps each requested symbol to its per-symbol dict. -/
structure YfPayload where
  portfolio : Dict YfQuote
deriving DecidableEq, Repr

/-- The quote dict built by `PolygonAgent.get_stock_data` (lines 39–51 of
`polygon_agent.py`) from a `/prev` aggregate bar, keeping the numeric keys.
Note the price is stored under `"current_price"`; no `"price"`, `"change"`
or `"change_percent"` key exists. -/
def polygonStockDict (c v h l o : ℚ) : Dict ℚ :=
  [("current_price", c), ("volume", v), ("high", h), ("low", l), ("open", o),
   ("price_change_1d", if o = 0 then 0 else (c - o) / o * 100)]

/-- The dict returned by `TechnicalIndicatorsAgent.get_portfolio_data`:
`portfolio` maps symbols to indicator dicts (opaque numeric payloads here —
no claim inspects indicator values). -/
structure TechPayload where
  portfolio : Dict (Dict ℚ)
deriving DecidableEq, Repr

/-- The dict returned by `FREDAgent.get_economic_indicators` (lines 54–60 of
`fred_agent.py`): an `indicators` dict (values opaque numeric payloads).
`none` models a successful dict that happens to lack the `"indicators"` key
(`_structure_market_data` line 369 tests for it). -/
structure FredPayload where
  indicators : Option (Dict (Dict ℚ))
deriving DecidableEq, Repr

/-- The raw news dict the aggregator stores for a news provider (lines
150–155 and 176–181): the collected tagged articles, plus an optional
`sentiment_summary` key.  `get_comprehensive_market_data` itself never
writes `sentiment_summary` (the structuring stage tests for it at lines
299 and 313 before recomputing from the articles). -/
structure NewsRaw where
  articles : List TaggedArticle
  sentimentSummary : Option SentimentCounts
deriving DecidableEq, Repr

deriving instance DecidableEq for Except

/-- `raw_results` as assembled by `get_comprehensive_market_data`
(lines 92–189): one entry per provider, in insertion order `yfinance`,
`polygon`, `technical_indicators`, `newsapi_us`, `finnhub`, `fred`.
`Except.error msg` models a dict carrying an `"error"` key. -/
structure RawResults where
  yfinance : Except String YfPayload
  polygon : Except String (Dict ℚ)
  technical : Except String TechPayload
  newsapi : Except String NewsRaw
  finnhub : Except String NewsRaw
  fred : Except String FredPayload
deriving DecidableEq, Repr

/-- Whether a raw result dict carries an `"error"` key (also reused as the
generic is-error test on `Except`). -/
def exceptHasError {ε α : Type} : Except ε α → Bool
  | .error _ => true
  | .ok _ => false

/-- `raw_results.items()` reduced to (name, has-error) pairs, in the
insertion order of lines 92–189. -/
def sourceEntries (raw : RawResults) : List (String × Bool) :=
  [("yfinance", exceptHasError raw.yfinance),
   ("polygon", exceptHasError raw.polygon),
   ("technical_indicators", exceptHasError raw.technical),
   ("newsapi_us", exceptHasError raw.newsapi),
   ("finnhub", exceptHasError raw.finnhub),
   ("fred", exceptHasError raw.fred)]

/-- The six provider names of the aggregation pipeline. -/
def providerNames : List String :=
  ["yfinance", "polygon", "technical_indicators", "newsapi_us", "finnhub", "fred"]

/-- Lines 457–462: sources whose raw result carries an `"error"` key. -/
def errorSourcesOf (raw : RawResults) : List String :=
  ((sourceEntries raw).filter (fun p => p.2)).map Prod.fst

/-- Lines 457–462: sources whose raw result carries no `"error"` key. -/
def availableSourcesOf (raw : RawResults) : List String :=
  ((sourceEntries raw).filter (fun p => !p.2)).map Prod.fst

/-! ## Structuring stage (`_structure_market_data`, lines 195–464) -/

/-- A `price_data` value: a dict that is either empty, populated by the
YFinance branch (lines 220–227), possibly overlaid by Polygon fallback keys
(lines 236–239).  `none` stands for key-absent-or-`None` (the two are
indistinguishable to every later read of these dicts). -/
structure PriceEntry where
  price : Option ℚ
  change : Option ℚ
  changePercent : Option ℚ
  volume : Option ℚ
  marketCap : Option ℚ
  peRatio : Option ℚ
deriving DecidableEq, Repr

/-- The freshly created `structured["price_data"][symbol] = {}` of line 211. -/
def PriceEntry.emptyDict : PriceEntry :=
  { price := none, change := none, changePercent := none,
    volume := none, marketCap := none, peRatio := none }

/-- Python truthiness of `structured["price_data"][symbol].get("price")`
(line 236): `None` (absent) and `0` are falsy. -/
def priceFalsy : Option ℚ → Bool
  | none => true
  | some p => p = 0

/-- Lines 209–239: build the `price_data` entry for one symbol.  The
YFinance branch fires only when the per-symbol dict exists and
`current_price` is truthy and `> 0`; the Polygon branch then overwrites
`price`/`change`/`change_percent` from `poly_data.get("price", 0)` etc.
whenever the entry still has no truthy price.  (The Polygon quote dict has
no `"price"`, `"change"` or `"change_percent"` keys, so those `get`s
always return the default `0`.) -/
def priceEntryFor (raw : RawResults) (symbol : String) : PriceEntry :=
  let e1 : PriceEntry :=
    match raw.yfinance with
    | .error _ => PriceEntry.emptyDict
    | .ok yf =>
      match dictLookup yf.portfolio symbol with
      | none => PriceEntry.emptyDict
      | some q =>
        match q.currentPrice with
        | none => PriceEntry.emptyDict
        | some cp =>
          if cp ≠ 0 ∧ cp > 0 then
            { price := some cp, change := q.priceChange1d,
              changePercent := q.priceChange1d, volume := q.volume,
              marketCap := q.marketCap, peRatio := q.peRatio }
          else PriceEntry.emptyDict
  match raw.polygon with
  | .error _ => e1
  | .ok poly =>
    if priceFalsy e1.price then
      { e1 with price := some (dictGetD poly "price" 0),
                change := some (dictGetD poly "change" 0),
                changePercent := some (dictGetD poly "change_percent" 0) }
    else e1

/-- Lines 271–287 applied to one article: append it to `ticker_news` under
its `related_ticker` when that ticker is not `"General"` and the relevance
check passes. -/
def tickerNewsAppend (acc : Dict (List TaggedArticle)) (a : TaggedArticle) :
    Dict (List TaggedArticle) :=
  if a.relatedTicker ≠ "General" ∧ validateCompanyRelevance a a.relatedTicker then
    match dictLookup acc a.relatedTicker with
    | some l => dictSet acc a.relatedTicker (l ++ [a])
    | none => acc ++ [(a.relatedTicker, [a])]
  else acc

/-- Lines 241–290: the combined `ticker_news` dict, built by iterating the
NewsAPI US articles then the Finnhub articles (error sources contribute
nothing). -/
def buildTickerNews (raw : RawResults) : Dict (List TaggedArticle) :=
  let naArts := match raw.newsapi with | .ok d => d.articles | .error _ => []
  let fhArts := match raw.finnhub with | .ok d => d.articles | .error _ => []
  (naArts ++ fhArts).foldl tickerNewsAppend []

/-- `_calculate_sentiment_summary`'s three counts (identical in
`newsapi_us_agent.py` lines 192–209 and `finnhub_agent.py` lines 248–265),
applied to the articles' `sentiment` strings.  Agent-parsed sentiments are
always one of the three keyword-classifier outputs. -/
def calcSentimentCounts (sents : List String) : SentimentCounts :=
  { positive := (sents.filter (fun s => s = "positive")).length,
    negative := (sents.filter (fun s => s = "negative")).length,
    neutral := (sents.filter (fun s => s = "neutral")).length }

/-- Lines 296–322 applied to one news source: use its `sentiment_summary`
if present, else recompute from its articles when the list is nonempty;
error sources contribute nothing. -/
def sentimentFrom (r : Except String NewsRaw) : List SentimentCounts :=
  match r with
  | .error _ => []
  | .ok d =>
    match d.sentimentSummary with
    | some s => [s]
    | none => if d.articles.isEmpty then [] else [calcSentimentCounts (d.articles.map (fun a => a.sentiment))]

/-- Lines 293–322: `all_sentiment_data`, NewsAPI US first, then Finnhub. -/
def pipelineSentimentData (raw : RawResults) : List SentimentCounts :=
  sentimentFrom raw.newsapi ++ sentimentFrom raw.finnhub

/-- Lines 366–381: economic indicators pass through when FRED succeeded and
its payload has an `indicators` key; otherwise an empty dict. -/
def econOf (raw : RawResults) : Dict (Dict ℚ) :=
  match raw.fred with
  | .ok d => (d.indicators).getD []
  | .error _ => []

/-- Lines 383–390: the `technical_data` entry for one symbol — the
technical agent's per-symbol dict when present and nonempty (Python
truthiness of `tech_data`), else the empty dict of line 385. -/
def techEntryFor (raw : RawResults) (symbol : String) : Dict ℚ :=
  match raw.technical with
  | .error _ => []
  | .ok t =>
    match dictLookup t.portfolio symbol with
    | some d => if d.isEmpty then [] else d
    | none => []

/-- The `sector_etfs` table (lines 393–405). -/
def sectorETFs : Dict String :=
  [("Technology", "XLK"), ("Healthcare", "XLV"), ("Financial", "XLF"),
   ("Consumer Discretionary", "XLY"), ("Consumer Staples", "XLP"),
   ("Energy", "XLE"), ("Industrial", "XLI"), ("Materials", "XLB"),
   ("Real Estate", "XLRE"), ("Utilities", "XLU"), ("Communication Services", "XLC")]

/-- Lines 413–446: the sector entry for one ETF.  When the ETF is in the
YFinance portfolio, a stored `None` price or daily change makes the Python
comparison/subtraction raise `TypeError` (modelled `Except.error ()`),
which the handler at line 453 turns into an empty `sector_performance`.
When the ETF is absent, a direct `yf.Ticker` fetch is attempted —
`etfInfo` gives its `(regularMarketPrice, previousClose)` when both keys
came back, `none` covering missing keys and the locally-caught exception
path (lines 442–446), both of which yield `0.0`. -/
def sectorEntryCompute (portfolio : Dict YfQuote)
    (etfInfo : String → Option (ℚ × ℚ)) (etf : String) : Except Unit ℚ :=
  match dictLookup portfolio etf with
  | some q =>
    match q.currentPrice with
    | none => .error ()
    | some c =>
      if c > 0 then
        match q.priceChange1d with
        | none => .error ()
        | some d =>
          let previous := c - d
          if previous > 0 then .ok (round2 ((c - previous) / previous * 100))
          else .ok 0
      else .ok 0
  | none =>
    match etfInfo etf with
    | some (cur, prevClose) =>
      if prevClose > 0 then .ok (round2 ((cur - prevClose) / prevClose * 100))
      else .ok 0
    | none => .ok 0

/-- The sector loop of lines 412–446: build the `(sector, value)` entries
in table order, aborting at the first per-ETF computation that raises (the
partially built dict is then discarded by the handler). -/
def collectSectors (portfolio : Dict YfQuote)
    (etfInfo : String → Option (ℚ × ℚ)) :
    List (String × String) → Except Unit (Dict ℚ)
  | [] => .ok []
  | p :: rest =>
    match sectorEntryCompute portfolio etfInfo p.2 with
    | .error e => .error e
    | .ok v =>
      match collectSectors portfolio etfInfo rest with
      | .error e => .error e
      | .ok tail => .ok ((p.1, v) :: tail)

/-- Lines 392–455: the `sector_performance` dict.  Empty when YFinance
errored (line 451) or any per-ETF computation raised (lines 453–455);
otherwise one entry per sector of the table, in table order. -/
def sectorPerformanceOf (raw : RawResults)
    (etfInfo : String → Option (ℚ × ℚ)) : Dict ℚ :=
  match raw.yfinance with
  | .error _ => []
  | .ok yf =>
    match collectSectors yf.portfolio etfInfo sectorETFs with
    | .ok entries => entries
    | .error _ => []

/-- The structured snapshot dict returned by `_structure_market_data`
(the `last_updated` timestamp and the always-empty `news_data` list are
omitted). -/
structure MarketSnapshot where
  availableSources : List String
  errorSources : List String
  priceData : Dict PriceEntry
  tickerNews : Dict (List TaggedArticle)
  newsSentiment : SentimentSummary
  economicIndicators : Dict (Dict ℚ)
  technicalData : Dict (Dict ℚ)
  sectorPerformance : Dict ℚ
deriving DecidableEq, Repr

/-- `_structure_market_data(raw_results, symbols)` (lines 195–464).
`etfInfo` is the direct `yf.Ticker` lookup the sector block performs for
ETFs missing from the portfolio. -/
def structureMarketData (raw : RawResults) (symbols : List String)
    (etfInfo : String → Option (ℚ × ℚ)) : MarketSnapshot :=
  { availableSources := availableSourcesOf raw
    errorSources := errorSourcesOf raw
    priceData := symbols.map (fun s => (s, priceEntryFor raw s))
    tickerNews := buildTickerNews raw
    newsSentiment := combineSentiment (pipelineSentimentData raw)
    economicIndicators := econOf raw
    technicalData := symbols.map (fun s => (s, techEntryFor raw s))
    sectorPerformance := sectorPerformanceOf raw etfInfo }

/-! ## The aggregator (`get_comprehensive_market_data`, lines 68–193) -/

/-- The observable behaviour of the provider agents during one aggregation
call (each agent catches its own exceptions, so every call returns a dict;
`Except.error` models an error dict). -/
structure Providers where
  yfinancePortfolio : List String → Except String YfPayload
  polygonStock : String → Except String (Dict ℚ)
  techPortfolio : List String → Except String TechPayload
  newsapiSearch : String → ℕ → ℤ → ℤ → Except String (List NAArticle)
  finnhubCompanyNews : String → ℤ → ℤ → Except String (List FHArticle)
  fredIndicators : Unit → Except String FredPayload

/-- Lines 92–189: collect `raw_results`.  Polygon is queried for
`symbols[0]` only (line 102), or recorded as `Err("No symbols provided")`
when the symbol list is empty (line 104).  The two news entries are always
built successfully by the collection loops (lines 150–155 and 176–181),
without a `sentiment_summary` key; erroneous individual searches are
swallowed inside the loops. -/
def rawResultsOf (p : Providers) (now : ℤ) (symbols : List String) : RawResults :=
  let window := dateWindow now
  { yfinance := p.yfinancePortfolio symbols
    polygon :=
      match symbols with
      | [] => .error "No symbols provided"
      | s :: _ => p.polygonStock s
    technical := p.techPortfolio symbols
    newsapi := .ok { articles := naCollect p.newsapiSearch window symbols,
                     sentimentSummary := none }
    finnhub := .ok { articles := fhCollect p.finnhubCompanyNews window symbols,
                     sentimentSummary := none }
    fred := p.fredIndicators () }

/-- `get_comprehensive_market_data(symbols)` (lines 68–193): collect raw
results, then structure them. -/
def getComprehensiveMarketData (p : Providers)
    (etfInfo : String → Option (ℚ × ℚ)) (now : ℤ) (symbols : List String) :
    MarketSnapshot :=
  structureMarketData (rawResultsOf p now symbols) symbols etfInfo

/-! ## Rate limiter (`MarketDataAgent._rate_limit_check`, `base_agent.py`
lines 34–52)

Timestamps are `ℚ` seconds.  A call of `_rate_limit_check` at wall time
`now` completes either immediately (at `now`) or, after `time.sleep`, at
`now + sleep_time`; the model idealises the sleep as exact and the
re-read of `time.time()` after waking as the wake instant. -/

/-- The limiter's mutable state: `request_window_start` and `request_count`. -/
structure LimiterState where
  windowStart : ℚ
  count : ℕ
deriving DecidableEq, Repr

/-- One `_rate_limit_check()` call at wall time `now`: returns the state
after the call and the time at which the call completes.  Lines 39–41 reset
an elapsed window (`count = 0`, `window_start = now`); lines 44–49 sleep
for `60 - (now - window_start)` when `count >= limit` and that is positive,
then reset (`count = 0`, `window_start = ` the wake time); line 51 then
increments the count.  The two sequential `if`s are written here with the
second nested inside both branches of the first; after a reset the at-limit
test compares `0` with the limit and the sleep duration is the full `60`,
as in the source. -/
def rateLimitCheck (limit : ℕ) (s : LimiterState) (now : ℚ) :
    LimiterState × ℚ :=
  if now - s.windowStart ≥ 60 then
    if limit ≤ 0 then
      ({ windowStart := now + 60, count := 0 + 1 }, now + 60)
    else
      ({ windowStart := now, count := 0 + 1 }, now)
  else
    if limit ≤ s.count then
      if 0 < 60 - (now - s.windowStart) then
        ({ windowStart := s.windowStart + 60, count := 0 + 1 },
         s.windowStart + 60)
      else
        ({ windowStart := s.windowStart, count := s.count + 1 }, now)
    else
      ({ windowStart := s.windowStart, count := s.count + 1 }, now)

/-- Run a sequence of `_rate_limit_check` calls at the given wall times,
returning for each call its completion time paired with the window-start
in force when it was counted. -/
def runAcquires (limit : ℕ) : LimiterState → List ℚ → List (ℚ × ℚ)
  | _, [] => []
  | s, t :: ts =>
    ((rateLimitCheck limit s t).2, (rateLimitCheck limit s t).1.windowStart)
      :: runAcquires limit (rateLimitCheck limit s t).1 ts

/-! ## TTL cache and `NewsAPIUSAgent.search_news`
(`base_agent.py` lines 54–69, `newsapi_us_agent.py` lines 72–131)

The source compares ISO-8601 timestamp strings lexicographically, which on
such strings agrees with chronological order; the model uses `ℚ` instants
directly. -/

/-- A cache slot as written by `_cache_set`: the payload plus its expiry
and creation instants. -/
structure CacheEntry (α : Type) where
  data : α
  expiresAt : ℚ
  cachedAt : ℚ
deriving DecidableEq, Repr

/-- The per-agent cache dict. -/
abbrev Cache (α : Type) := Dict (CacheEntry α)

/-- `_cache_get(key)` (lines 54–60): return the stored payload when the key
exists and `now < expires_at`, else nothing. -/
def cacheGet {α : Type} (c : Cache α) (key : String) (now : ℚ) : Option α :=
  match dictLookup c key with
  | some e => if now < e.expiresAt then some e.data else none
  | none => none

/-- `_cache_set(key, data)` (lines 62–69) with cache duration `dur`. -/
def cacheSet {α : Type} (c : Cache α) (key : String) (data : α) (now dur : ℚ) :
    Cache α :=
  dictSet c key { data := data, expiresAt := now + dur, cachedAt := now }

/-- What the HTTP layer handed back to `search_news` on a cache miss:
`_make_request` returned JSON containing an `"articles"` key; or it
returned something without one (a well-formed empty result, or the
`{"error": ...}` dict `_make_request` substitutes for network errors); or
an exception escaped into `search_news`'s own handler (lines 129–131). -/
inductive HttpOutcome where
  | withArticles (arts : List NAArticle)
  | noArticles
  | exn (msg : String)
deriving DecidableEq, Repr

/-- The dict `search_news` returns and caches: a payload with parsed
articles, or a dict carrying an `"error"` key.  Both are nonempty dicts,
hence truthy at the `if cached_data:` test of line 79. -/
abbrev SearchResult := Except String (List NAArticle)

/-- Line 77: `cache_key = f"newsapi_us_search_{query}_{page_size}_{from_date}_{to_date}"`. -/
def searchCacheKey (query : String) (pageSize : ℕ) (fromDate toDate : ℤ) :
    String :=
  "newsapi_us_search_" ++ query ++ "_" ++ toString pageSize
    ++ "_" ++ toString fromDate ++ "_" ++ toString toDate

/-- `search_news(query, page_size, from_date, to_date)` (lines 72–131) at
wall time `now` with cache TTL `ttl`: returns the result dict and the
agent's cache after the call.  Note lines 123–126: when the response lacks
`"articles"`, the error dict is built *and stored in the cache* before
being returned; only the missing-key return (line 75) and the exception
path (lines 129–131) skip the cache write. -/
def searchNews (hasKey : Bool) (c : Cache SearchResult) (query : String)
    (pageSize : ℕ) (fromDate toDate : ℤ) (now ttl : ℚ) (http : HttpOutcome) :
    SearchResult × Cache SearchResult :=
  if ¬ hasKey then (.error "NewsAPI US key not configured", c)
  else
    let cacheKey := searchCacheKey query pageSize fromDate toDate
    match cacheGet c cacheKey now with
    | some d => (d, c)
    | none =>
      match http with
      | .withArticles arts => (.ok arts, cacheSet c cacheKey (.ok arts) now ttl)
      | .noArticles =>
        (.error "No search results available",
         cacheSet c cacheKey (.error "No search results available") now ttl)
      | .exn m => (.error m, c)

/-! # Theorems -/

/-- Comparing two bucket percentages over the same positive total compares
the underlying counts. -/
theorem percent_lt_percent_iff (a b T : ℕ) (hT : 0 < T) :
    (a : ℚ) / T * 100 < (b : ℚ) / T * 100 ↔ a < b := by
  rw [mul_lt_mul_right (by norm_num : (0 : ℚ) < 100),
    div_lt_div_iff_of_pos_right (by exact_mod_cast hT), Nat.cast_lt]

/-- The percentage comparison at lines 337–342 agrees with the raw count
comparison whenever some article exists. -/
theorem negativePercent_lt_positivePercent_iff (ds : List SentimentCounts)
    (h : 0 < totalArticles ds) :
    (negativePercent ds < positivePercent ds ↔ totalNegative ds < totalPositive ds) := by
  simpa [positivePercent, negativePercent] using
    percent_lt_percent_iff (totalNegative ds) (totalPositive ds) (totalArticles ds) h

theorem positivePercent_lt_negativePercent_iff (ds : List SentimentCounts)
    (h : 0 < totalArticles ds) :
    (positivePercent ds < negativePercent ds ↔ totalPositive ds < totalNegative ds) := by
  simpa [positivePercent, negativePercent] using
    percent_lt_percent_iff (totalPositive ds) (totalNegative ds) (totalArticles ds) h

/-- C1 counterexample: for the single tally `{positive: 1, negative: 0,
neutral: 2}` the neutral bucket strictly exceeds both others (and holds a
strict majority of the 3 articles), yet the structuring stage labels the
combined sentiment `"Positive"`, not neutral — lines 337–342 compare only
the positive and negative percentages and ignore the neutral bucket. -/
theorem C1_counterexample :
    totalPositive [⟨1, 0, 2⟩] < totalNeutral [⟨1, 0, 2⟩]
    ∧ totalNegative [⟨1, 0, 2⟩] < totalNeutral [⟨1, 0, 2⟩]
    ∧ totalArticles [⟨1, 0, 2⟩] < 2 * totalNeutral [⟨1, 0, 2⟩]
    ∧ (combineSentiment [⟨1, 0, 2⟩]).overall = "Positive" := by
  refine ⟨by decide, by decide, by decide, ?_⟩
  norm_num [combineSentiment, positivePercent, negativePercent, neutralPercent,
    totalPositive, totalNegative, totalNeutral, totalArticles]

/-- C1 (amended): the combined overall label is `"Positive"` exactly when
the summed positive count strictly exceeds the summed negative count,
`"Negative"` exactly in the opposite case, and `"Neutral"` exactly when the
two are equal (in particular on empty input); the neutral count never
influences the label. -/
theorem C1_theorem (ds : List SentimentCounts) :
    ((combineSentiment ds).overall = "Positive"
        ↔ totalNegative ds < totalPositive ds)
    ∧ ((combineSentiment ds).overall = "Negative"
        ↔ totalPositive ds < totalNegative ds)
    ∧ ((combineSentiment ds).overall = "Neutral"
        ↔ totalPositive ds = totalNegative ds) := by
  by_cases hE : ds.isEmpty
  · have hnil : ds = [] := List.isEmpty_iff.mp hE
    subst hnil
    refine ⟨?_, ?_, ?_⟩ <;> simp [combineSentiment, totalPositive, totalNegative]
  · by_cases hT : 0 < totalArticles ds
    · have hP : totalPositive ds ≤ totalArticles ds := by
        unfold totalArticles; omega
      have hco : combineSentiment ds =
          { positive := round1 (positivePercent ds)
            neutral := round1 (neutralPercent ds)
            negative := round1 (negativePercent ds)
            overall :=
              if positivePercent ds > negativePercent ds then "Positive"
              else if negativePercent ds > positivePercent ds then "Negative"
              else "Neutral" } := by
        unfold combineSentiment
        rw [if_pos (by simpa using hE), if_pos hT]
      rw [hco]
      by_cases h1 : negativePercent ds < positivePercent ds
      · have hc : totalNegative ds < totalPositive ds :=
          (negativePercent_lt_positivePercent_iff ds hT).mp h1
        simp only [gt_iff_lt, if_pos h1]
        refine ⟨by simpa using hc, ?_, ?_⟩
        · constructor
          · intro h; exact absurd h (by decide)
          · intro h; omega
        · constructor
          · intro h; exact absurd h (by decide)
          · intro h; omega
      · by_cases h2 : positivePercent ds < negativePercent ds
        · have hc : totalPositive ds < totalNegative ds :=
            (positivePercent_lt_negativePercent_iff ds hT).mp h2
          simp only [gt_iff_lt, if_neg h1, if_pos h2]
          refine ⟨?_, by simpa using hc, ?_⟩
          · constructor
            · intro h; exact absurd h (by decide)
            · intro h; omega
          · constructor
            · intro h; exact absurd h (by decide)
            · intro h; omega
        · have hc1 : ¬ totalNegative ds < totalPositive ds := fun h =>
            h1 ((negativePercent_lt_positivePercent_iff ds hT).mpr h)
          have hc2 : ¬ totalPositive ds < totalNegative ds := fun h =>
            h2 ((positivePercent_lt_negativePercent_iff ds hT).mpr h)
          simp only [gt_iff_lt, if_neg h1, if_neg h2]
          refine ⟨?_, ?_, ?_⟩
          · constructor
            · intro h; exact absurd h (by decide)
            · intro h; omega
          · constructor
            · intro h; exact absurd h (by decide)
            · intro h; omega
          · simp only [true_iff]
            omega
    · have hz : totalArticles ds = 0 := by omega
      have hp : totalPositive ds = 0 := by unfold totalArticles at hz; omega
      have hn : totalNegative ds = 0 := by unfold totalArticles at hz; omega
      have hco : combineSentiment ds =
          { positive := 0, neutral := 0, negative := 0, overall := "Neutral" } := by
        unfold combineSentiment
        rw [if_pos (by simpa using hE), if_neg hT]
      rw [hco, hp, hn]
      refine ⟨?_, ?_, ?_⟩ <;> simp

/-- C4 counterexample: for a single tally of one positive, one negative and
one neutral article, the reported (rounded) percentages are `33.3` each and
sum to `99.9`, not `100`, and are not all zero despite articles being
present. -/
theorem C4_counterexample :
    combineSentiment [⟨1, 1, 1⟩] =
      { positive := 333/10, neutral := 333/10, negative := 333/10, overall := "Neutral" }
    ∧ (333/10 + 333/10 + 333/10 : ℚ) ≠ 100
    ∧ (333/10 : ℚ) ≠ 0 := by
  refine ⟨?_, by norm_num, by norm_num⟩
  norm_num [combineSentiment, positivePercent, negativePercent, neutralPercent,
    totalPositive, totalNegative, totalNeutral, totalArticles, round1, round_eq]

/-- C4 (amended): before the per-bucket rounding of lines 345–347 the three
combined percentages sum to exactly 100 whenever at least one article was
tallied, and are all exactly 0 when no article was; only the reported
values, rounded to one decimal independently, can sum to a near-100 value
such as 99.9. -/
theorem C4_theorem (ds : List SentimentCounts) :
    (0 < totalArticles ds →
      positivePercent ds + negativePercent ds + neutralPercent ds = 100)
    ∧ (totalArticles ds = 0 →
      positivePercent ds = 0 ∧ negativePercent ds = 0 ∧ neutralPercent ds = 0) := by
  constructor
  · intro h
    have hT : ((totalArticles ds : ℚ)) ≠ 0 := by
      have : totalArticles ds ≠ 0 := by omega
      exact_mod_cast this
    have hsum : (totalPositive ds : ℚ) + totalNegative ds + totalNeutral ds
        = (totalArticles ds : ℚ) := by
      unfold totalArticles; push_cast; ring
    unfold positivePercent negativePercent neutralPercent
    field_simp
    linarith [hsum]
  · intro h
    have hp : totalPositive ds = 0 := by unfold totalArticles at h; omega
    have hn : totalNegative ds = 0 := by unfold totalArticles at h; omega
    have hu : totalNeutral ds = 0 := by unfold totalArticles at h; omega
    refine ⟨?_, ?_, ?_⟩ <;>
      simp [positivePercent, negativePercent, neutralPercent, hp, hn, hu]

/-- C4 witness: the amended sum-to-100 law at the tally `[⟨1, 1, 1⟩]`. -/
theorem C4_witness :
    positivePercent [⟨1, 1, 1⟩] + negativePercent [⟨1, 1, 1⟩]
      + neutralPercent [⟨1, 1, 1⟩] = 100 :=
  (C4_theorem [⟨1, 1, 1⟩]).1 (by decide)

/-- C7: on a weekend (`weekday ≥ 5`) the date window handed to the
date-bounded news providers ends on the most recent preceding Friday
(1 day back on Saturday, 2 on Sunday — a Friday, strictly before today,
with no Friday in between) and starts 7 days before that Friday; on a
weekday the window is `[now - 7, now]`. -/
theorem C7_theorem (now : ℤ) :
    (isWeekend now = true →
      weekday (dateWindow now).2 = 4
      ∧ (dateWindow now).2 < now
      ∧ (weekday now = 5 → (dateWindow now).2 = now - 1)
      ∧ (weekday now = 6 → (dateWindow now).2 = now - 2)
      ∧ (∀ d : ℤ, (dateWindow now).2 < d → d < now → weekday d ≠ 4)
      ∧ (dateWindow now).1 = (dateWindow now).2 - 7)
    ∧ (isWeekend now = false → dateWindow now = (now - 7, now)) := by
  constructor
  · intro hw
    have h5 : 5 ≤ now % 7 := by
      simpa [isWeekend, weekday, decide_eq_true_eq] using hw
    have hTo : (dateWindow now).2 = now - (now % 7 - 4) % 7 := by
      unfold dateWindow
      rw [if_pos hw]
      rfl
    have hFrom : (dateWindow now).1 = now - (now % 7 - 4) % 7 - 7 := by
      unfold dateWindow
      rw [if_pos hw]
      rfl
    refine ⟨?_, ?_, ?_, ?_, ?_, ?_⟩
    · rw [hTo]; unfold weekday; omega
    · rw [hTo]; omega
    · intro h; unfold weekday at h; rw [hTo]; omega
    · intro h; unfold weekday at h; rw [hTo]; omega
    · intro d h1 h2
      rw [hTo] at h1
      unfold weekday
      omega
    · rw [hFrom, hTo]
  · intro hw
    unfold dateWindow
    rw [if_neg (by simp [hw])]

/-- C7 witness: on the Saturday `now = 5` (day 0 being a Monday) the window
ends on the preceding Friday `4` and starts at `-3`. -/
theorem C7_witness :
    weekday (dateWindow 5).2 = 4 ∧ (dateWindow 5).2 < 5
      ∧ (dateWindow 5).1 = (dateWindow 5).2 - 7 := by
  have h := (C7_theorem 5).1 (by decide)
  exact ⟨h.1, h.2.1, h.2.2.2.2.2⟩

/-- Looking up a key produced by mapping a function over a symbol list
always succeeds for listed symbols. -/
theorem dictLookup_map_isSome {α : Type} (f : String → α) (l : List String)
    (s : String) (h : s ∈ l) :
    (dictLookup (l.map (fun x => (x, f x))) s).isSome := by
  induction l with
  | nil => cases h
  | cons a t ih =>
    by_cases ha : a = s
    · subst ha
      simp [dictLookup]
    · rcases List.mem_cons.mp h with h1 | h2
      · exact absurd h1.symm ha
      · simpa [dictLookup, List.find?, ha] using ih h2

/-- C10: every input symbol is a key of both `price_data` and
`technical_data` in the structured snapshot, whatever the raw results
(including all providers failing); absence is never observable, only a
present-but-empty entry. -/
theorem C10_theorem (raw : RawResults) (symbols : List String)
    (etfInfo : String → Option (ℚ × ℚ)) (s : String) (h : s ∈ symbols) :
    (dictLookup (structureMarketData raw symbols etfInfo).priceData s).isSome
    ∧ (dictLookup (structureMarketData raw symbols etfInfo).technicalData s).isSome := by
  constructor
  · exact dictLookup_map_isSome (priceEntryFor raw) symbols s h
  · exact dictLookup_map_isSome (techEntryFor raw) symbols s h

/-- C10 witness: with every provider failing and input `["AAPL"]`, the
symbol is still a key of both maps. -/
theorem C10_witness :
    (dictLookup (structureMarketData
        ⟨.error "e", .error "e", .error "e", .error "e", .error "e", .error "e"⟩
        ["AAPL"] (fun _ => none)).priceData "AAPL").isSome
    ∧ (dictLookup (structureMarketData
        ⟨.error "e", .error "e", .error "e", .error "e", .error "e", .error "e"⟩
        ["AAPL"] (fun _ => none)).technicalData "AAPL").isSome :=
  C10_theorem ⟨.error "e", .error "e", .error "e", .error "e", .error "e", .error "e"⟩
    ["AAPL"] (fun _ => none) "AAPL" (by decide)

/-- Whether source `n`'s raw result carries an `"error"` key. -/
def rawHasError (raw : RawResults) (n : String) : Bool :=
  dictGetD (sourceEntries raw) n false

/-- C5 counterexample: the pipeline queries six providers, not five.  With
exactly two of them failing (polygon unconfigured, FRED unconfigured) the
snapshot reports `errorSources = ["polygon", "fred"]` of length 2 but
`availableSources` of length 4, not 3. -/
theorem C5_counterexample :
    (getComprehensiveMarketData
        { yfinancePortfolio := fun _ => .ok { portfolio := [] }
          polygonStock := fun _ => .error "Polygon API key not configured"
          techPortfolio := fun _ => .ok { portfolio := [] }
          newsapiSearch := fun _ _ _ _ => .ok []
          finnhubCompanyNews := fun _ _ _ => .ok []
          fredIndicators := fun _ => .error "FRED API key not configured" }
        (fun _ => none) 0 ["AAPL"]).errorSources = ["polygon", "fred"]
    ∧ (getComprehensiveMarketData
        { yfinancePortfolio := fun _ => .ok { portfolio := [] }
          polygonStock := fun _ => .error "Polygon API key not configured"
          techPortfolio := fun _ => .ok { portfolio := [] }
          newsapiSearch := fun _ _ _ _ => .ok []
          finnhubCompanyNews := fun _ _ _ => .ok []
          fredIndicators := fun _ => .error "FRED API key not configured" }
        (fun _ => none) 0 ["AAPL"]).availableSources
      = ["yfinance", "technical_indicators", "newsapi_us", "finnhub"]
    ∧ (4 : ℕ) ≠ 3 := by
  refine ⟨by decide, by decide, by decide⟩

/-- C5 (amended): the structuring stage is total — it always returns a
snapshot — and partitions the *six* queried providers: each provider name
is in `errorSources` exactly when its raw result carries an error and in
`availableSources` exactly otherwise; the two lengths always sum to 6, and
when exactly 2 providers err, 4 (not 3) remain available. -/
theorem C5_theorem (raw : RawResults) :
    (∀ n, n ∈ providerNames →
      (n ∈ errorSourcesOf raw ↔ rawHasError raw n = true)
      ∧ (n ∈ availableSourcesOf raw ↔ rawHasError raw n = false))
    ∧ (errorSourcesOf raw).length + (availableSourcesOf raw).length
        = providerNames.length
    ∧ ((errorSourcesOf raw).length = 2 → (availableSourcesOf raw).length = 4) := by
  cases h1 : exceptHasError raw.yfinance <;>
    cases h2 : exceptHasError raw.polygon <;>
    cases h3 : exceptHasError raw.technical <;>
    cases h4 : exceptHasError raw.newsapi <;>
    cases h5 : exceptHasError raw.finnhub <;>
    cases h6 : exceptHasError raw.fred <;>
    all_goals
      (simp only [errorSourcesOf, availableSourcesOf, rawHasError, sourceEntries,
        h1, h2, h3, h4, h5, h6]; decide)

/-- C5 witness: the partition law applied at a concrete raw-result vector
with two failures. -/
theorem C5_witness :
    ("polygon" ∈ errorSourcesOf
      ⟨.ok { portfolio := [] }, .error "e", .ok { portfolio := [] },
       .ok { articles := [], sentimentSummary := none },
       .ok { articles := [], sentimentSummary := none }, .error "e"⟩
      ↔ rawHasError
      ⟨.ok { portfolio := [] }, .error "e", .ok { portfolio := [] },
       .ok { articles := [], sentimentSummary := none },
       .ok { articles := [], sentimentSummary := none }, .error "e"⟩ "polygon" = true) :=
  ((C5_theorem
      ⟨.ok { portfolio := [] }, .error "e", .ok { portfolio := [] },
       .ok { articles := [], sentimentSummary := none },
       .ok { articles := [], sentimentSummary := none }, .error "e"⟩).1
    "polygon" (by decide)).1

/-- C3: the Polygon fallback never delivers Polygon's price.  For the
single symbol `"AAPL"`, YFinance yields no price and Polygon succeeds with
close `123.45` (stored under `"current_price"` by its own parser), yet the
snapshot's `"AAPL"` entry carries `price = 0`: lines 237–239 read the keys
`"price"`, `"change"`, `"change_percent"`, which a Polygon quote dict never
contains, so the `dict.get` defaults of `0` are stored instead of
`123.45`. -/
theorem C3_theorem :
    dictGetD (polygonStockDict (123.45) 1000 124 122 123) "current_price" 0 = 123.45
    ∧ (0 : ℚ) < 123.45
    ∧ dictLookup (getComprehensiveMarketData
        { yfinancePortfolio := fun _ => .ok { portfolio := [] }
          polygonStock := fun _ => .ok (polygonStockDict (123.45) 1000 124 122 123)
          techPortfolio := fun _ => .error "e"
          newsapiSearch := fun _ _ _ _ => .error "e"
          finnhubCompanyNews := fun _ _ _ => .error "e"
          fredIndicators := fun _ => .error "e" }
        (fun _ => none) 0 ["AAPL"]).priceData "AAPL"
      = some { price := some 0, change := some 0, changePercent := some 0,
               volume := none, marketCap := none, peRatio := none } := by
  refine ⟨?_, by norm_num, ?_⟩
  · norm_num [dictGetD, dictLookup, polygonStockDict, List.find?]
  · rfl

/-- C8 helper: when every per-ETF computation succeeds, the sector loop
returns a dict. -/
theorem collectSectors_ok (portfolio : Dict YfQuote)
    (etfInfo : String → Option (ℚ × ℚ)) :
    ∀ l : List (String × String),
      (∀ p ∈ l, exceptHasError (sectorEntryCompute portfolio etfInfo p.2) = false) →
      ∃ out, collectSectors portfolio etfInfo l = .ok out := by
  intro l
  induction l with
  | nil => intro _; exact ⟨[], rfl⟩
  | cons p rest ih =>
    intro h
    obtain ⟨out, hout⟩ := ih (fun q hq => h q (List.mem_cons_of_mem _ hq))
    have hp := h p (List.mem_cons_self _ _)
    cases hc : sectorEntryCompute portfolio etfInfo p.2 with
    | error e => rw [hc] at hp; simp [exceptHasError] at hp
    | ok v => exact ⟨(p.1, v) :: out, by simp [collectSectors, hc, hout]⟩

/-- C8 helper: the sector loop's output keys are the table's sector names,
in order. -/
theorem collectSectors_map_fst (portfolio : Dict YfQuote)
    (etfInfo : String → Option (ℚ × ℚ)) :
    ∀ (l : List (String × String)) (out : Dict ℚ),
      collectSectors portfolio etfInfo l = .ok out →
      out.map Prod.fst = l.map Prod.fst := by
  intro l
  induction l with
  | nil =>
    intro out h
    simp only [collectSectors, Except.ok.injEq] at h
    subst h; rfl
  | cons p rest ih =>
    intro out h
    cases hc : sectorEntryCompute portfolio etfInfo p.2 with
    | error e => simp [collectSectors, hc] at h
    | ok v =>
      cases hr : collectSectors portfolio etfInfo rest with
      | error e => simp [collectSectors, hc, hr] at h
      | ok tail =>
        simp only [collectSectors, hc, hr, Except.ok.injEq] at h
        subst h
        simpa using ih tail hr

theorem dictLookup_cons_self {α : Type} (k : String) (v : α) (d : Dict α) :
    dictLookup ((k, v) :: d) k = some v := by
  simp [dictLookup]

theorem dictLookup_cons_of_ne {α : Type} (k q : String) (v : α) (d : Dict α)
    (h : ¬ k = q) : dictLookup ((k, v) :: d) q = dictLookup d q := by
  simp [dictLookup, List.find?, h]

/-- C8 helper: under distinct sector names, each successful entry is found
at its own name. -/
theorem collectSectors_lookup (portfolio : Dict YfQuote)
    (etfInfo : String → Option (ℚ × ℚ)) :
    ∀ (l : List (String × String)) (out : Dict ℚ),
      collectSectors portfolio etfInfo l = .ok out →
      (l.map Prod.fst).Nodup →
      ∀ s etf, (s, etf) ∈ l →
        dictLookup out s = (sectorEntryCompute portfolio etfInfo etf).toOption := by
  intro l
  induction l with
  | nil => intro out _ _ s etf hmem; cases hmem
  | cons p rest ih =>
    intro out h hnd s etf hmem
    obtain ⟨pn, pe⟩ := p
    cases hc : sectorEntryCompute portfolio etfInfo (pn, pe).2 with
    | error e => simp [collectSectors, hc] at h
    | ok v =>
      cases hr : collectSectors portfolio etfInfo rest with
      | error e => simp [collectSectors, hc, hr] at h
      | ok tail =>
        simp only [collectSectors, hc, hr, Except.ok.injEq] at h
        subst h
        rcases List.mem_cons.mp hmem with h1 | h2
        · injection h1 with hs he
          subst hs; subst he
          rw [dictLookup_cons_self, hc]
          rfl
        · have hne : ¬ pn = s := by
            intro hEq
            have hsm : s ∈ rest.map Prod.fst :=
              List.mem_map.mpr ⟨(s, etf), h2, rfl⟩
            rw [List.map_cons] at hnd
            exact (List.nodup_cons.mp hnd).1 (hEq ▸ hsm)
          rw [dictLookup_cons_of_ne _ _ _ _ hne]
          exact ih tail hr (List.nodup_cons.mp (by simpa using hnd)).2 s etf h2

/-- C8 counterexample: when the YFinance raw result carries an error, the
structuring stage emits an *empty* `sector_performance` dict (line 451) —
every sector, `"Technology"` included, is omitted rather than reported as
`0.0`. -/
theorem C8_counterexample :
    (structureMarketData
        ⟨.error "YFinance request failed", .error "e", .error "e",
         .ok { articles := [], sentimentSummary := none },
         .ok { articles := [], sentimentSummary := none }, .error "e"⟩
        ["AAPL"] (fun _ => none)).sectorPerformance = []
    ∧ "Technology" ∈ sectorETFs.map Prod.fst
    ∧ dictLookup (structureMarketData
        ⟨.error "YFinance request failed", .error "e", .error "e",
         .ok { articles := [], sentimentSummary := none },
         .ok { articles := [], sentimentSummary := none }, .error "e"⟩
        ["AAPL"] (fun _ => none)).sectorPerformance "Technology" = none :=
  ⟨rfl, by decide, rfl⟩

/-- C8 (amended): when the YFinance raw result is successful and no per-ETF
computation hits a stored `None` (which would raise and empty the dict),
`sector_performance` holds exactly one entry per sector of the fixed table
— the ETF's rounded daily percent change, or `0.0` where data is missing —
and no sector is omitted; when YFinance errored the dict is empty instead. -/
theorem C8_theorem (raw : RawResults) (etfInfo : String → Option (ℚ × ℚ))
    (yf : YfPayload) (h1 : raw.yfinance = .ok yf)
    (h2 : ∀ p ∈ sectorETFs,
      exceptHasError (sectorEntryCompute yf.portfolio etfInfo p.2) = false) :
    (sectorPerformanceOf raw etfInfo).map Prod.fst = sectorETFs.map Prod.fst
    ∧ ∀ s etf, (s, etf) ∈ sectorETFs →
        dictLookup (sectorPerformanceOf raw etfInfo) s
          = (sectorEntryCompute yf.portfolio etfInfo etf).toOption := by
  obtain ⟨out, hout⟩ := collectSectors_ok yf.portfolio etfInfo sectorETFs h2
  have hsp : sectorPerformanceOf raw etfInfo = out := by
    simp [sectorPerformanceOf, h1, hout]
  rw [hsp]
  refine ⟨collectSectors_map_fst _ _ _ _ hout, ?_⟩
  intro s etf hmem
  exact collectSectors_lookup _ _ _ _ hout (by decide) s etf hmem

/-- C8 witness: with a successful (empty-portfolio) YFinance result and no
direct ETF data, the sector map still covers the full table. -/
theorem C8_witness :
    (sectorPerformanceOf
        ⟨.ok { portfolio := [] }, .error "e", .error "e",
         .ok { articles := [], sentimentSummary := none },
         .ok { articles := [], sentimentSummary := none }, .error "e"⟩
        (fun _ => none)).map Prod.fst = sectorETFs.map Prod.fst :=
  (C8_theorem
      ⟨.ok { portfolio := [] }, .error "e", .error "e",
       .ok { articles := [], sentimentSummary := none },
       .ok { articles := [], sentimentSummary := none }, .error "e"⟩
      (fun _ => none) { portfolio := [] } rfl (by decide)).1

/-- The NewsAPI dedup key read back from a tagged article (tagging
preserves `title` and `url`). -/
def naTagKey (t : TaggedArticle) : String := t.title ++ "_" ++ t.url

/-- The Finnhub dedup key read back from a tagged article (tagging
preserves the article's `id` rendering and `headline`). -/
def fhTagKey (t : TaggedArticle) : String := t.idStr ++ "_" ++ t.headline

/-- The invariant of both dedup loops: collected keys are pairwise
distinct, and every collected key has been recorded in `seen_articles`. -/
def dedupInv (key : TaggedArticle → String)
    (acc : List TaggedArticle × List String) : Prop :=
  (acc.1.map key).Nodup ∧ ∀ t ∈ acc.1, key t ∈ acc.2

/-- Folding preserves any invariant each step preserves. -/
theorem foldl_preserve {σ α : Type} (P : σ → Prop) (f : σ → α → σ)
    (hf : ∀ s a, P s → P (f s a)) :
    ∀ (l : List α) (s : σ), P s → P (l.foldl f s) := by
  intro l
  induction l with
  | nil => intro s h; exact h
  | cons a t ih => intro s h; exact ih (f s a) (hf s a h)

theorem naStep_inv (symbol term : String) :
    ∀ acc a, dedupInv naTagKey acc → dedupInv naTagKey (naStep symbol term acc a) := by
  intro acc a h
  unfold naStep
  by_cases hk : naKey a ∈ acc.2
  · rw [if_pos hk]; exact h
  · rw [if_neg hk]
    have hkey : naTagKey (naTag a symbol term) = naKey a := rfl
    constructor
    · rw [List.map_append]
      rw [List.nodup_append]
      refine ⟨h.1, by simp, ?_⟩
      intro x hx hx2
      simp only [List.map_cons, List.map_nil, List.mem_cons, List.not_mem_nil,
        or_false, hkey] at hx2
      obtain ⟨t, ht, hteq⟩ := List.mem_map.mp hx
      exact hk (hx2 ▸ hteq ▸ h.2 t ht)
    · intro t ht
      rcases List.mem_append.mp ht with h1 | h2
      · exact List.mem_append_left _ (h.2 t h1)
      · simp only [List.mem_singleton] at h2
        subst h2
        exact List.mem_append_right _ (by simp [hkey])

theorem fhStep_inv (symbol : String) :
    ∀ acc a, dedupInv fhTagKey acc → dedupInv fhTagKey (fhStep symbol acc a) := by
  intro acc a h
  unfold fhStep
  by_cases hk : fhKey a ∈ acc.2
  · rw [if_pos hk]; exact h
  · rw [if_neg hk]
    have hkey : fhTagKey (fhTag a symbol) = fhKey a := rfl
    constructor
    · rw [List.map_append]
      rw [List.nodup_append]
      refine ⟨h.1, by simp, ?_⟩
      intro x hx hx2
      simp only [List.map_cons, List.map_nil, List.mem_cons, List.not_mem_nil,
        or_false, hkey] at hx2
      obtain ⟨t, ht, hteq⟩ := List.mem_map.mp hx
      exact hk (hx2 ▸ hteq ▸ h.2 t ht)
    · intro t ht
      rcases List.mem_append.mp ht with h1 | h2
      · exact List.mem_append_left _ (h.2 t h1)
      · simp only [List.mem_singleton] at h2
        subst h2
        exact List.mem_append_right _ (by simp [hkey])

theorem naSymbolStep_inv (search : String → ℕ → ℤ → ℤ → Except String (List NAArticle))
    (window : ℤ × ℤ) :
    ∀ acc symbol, dedupInv naTagKey acc →
      dedupInv naTagKey (naSymbolStep search window acc symbol) := by
  intro acc symbol h
  unfold naSymbolStep
  refine foldl_preserve _ _ ?_ _ _ h
  intro s term hs
  cases hsr : search term 6 window.1 window.2 with
  | ok arts =>
    simp only [hsr]
    exact foldl_preserve _ _ (naStep_inv symbol term) arts s hs
  | error e => simpa only [hsr] using hs

theorem fhSymbolStep_inv (companyNews : String → ℤ → ℤ → Except String (List FHArticle))
    (window : ℤ × ℤ) :
    ∀ acc symbol, dedupInv fhTagKey acc →
      dedupInv fhTagKey (fhSymbolStep companyNews window acc symbol) := by
  intro acc symbol h
  unfold fhSymbolStep
  cases hsr : companyNews symbol window.1 window.2 with
  | ok arts =>
    simp only [hsr]
    exact foldl_preserve _ _ (fhStep_inv symbol) arts acc h
  | error e => simpa only [hsr] using h

/-- C2 counterexample: deduplication is per-provider, with provider-specific
keys, so cross-provider duplicates by `(title, url)` survive.  Two Finnhub
articles with distinct `(id, headline)` dedup keys but the same `url` both
read back `title = ""` through `dict.get` (Finnhub parses store no `title`
key), pass relevance filtering for the caller-supplied ticker `""`, and the
final snapshot's news map holds *two* copies sharing the `(title, url)`
composite key `("", "u")` under that ticker. -/
theorem C2_counterexample :
    ((dictLookup (getComprehensiveMarketData
        { yfinancePortfolio := fun _ => .error "e"
          polygonStock := fun _ => .error "e"
          techPortfolio := fun _ => .error "e"
          newsapiSearch := fun _ _ _ _ => .error "e"
          finnhubCompanyNews := fun _ _ _ => .ok
            [{ id := 1, headline := "h1", summary := "", url := "u", sentiment := "neutral" },
             { id := 2, headline := "h2", summary := "", url := "u", sentiment := "neutral" }]
          fredIndicators := fun _ => .error "e" }
        (fun _ => none) 0 [""]).tickerNews "").getD []).map (fun a => (a.title, a.url))
      = [("", "u"), ("", "u")] := by
  decide

/-- C2 (amended): deduplication happens separately inside each provider's
collection loop with that provider's key — `(title, url)` for NewsAPI US,
`(id, headline)` for Finnhub — so within one provider's collected articles
the keys are pairwise distinct (hence at most one copy per `(title, url)`
among NewsAPI articles), but articles are not deduplicated across the two
providers. -/
theorem C2_theorem (search : String → ℕ → ℤ → ℤ → Except String (List NAArticle))
    (companyNews : String → ℤ → ℤ → Except String (List FHArticle))
    (window : ℤ × ℤ) (symbols : List String) :
    ((naCollect search window symbols).map naTagKey).Nodup
    ∧ ((fhCollect companyNews window symbols).map fhTagKey).Nodup := by
  have base1 : dedupInv naTagKey (([], []) : List TaggedArticle × List String) :=
    ⟨List.nodup_nil, by intro t ht; cases ht⟩
  have base2 : dedupInv fhTagKey (([], []) : List TaggedArticle × List String) :=
    ⟨List.nodup_nil, by intro t ht; cases ht⟩
  constructor
  · exact (foldl_preserve _ _ (naSymbolStep_inv search window) symbols _ base1).1
  · exact (foldl_preserve _ _ (fhSymbolStep_inv companyNews window) symbols _ base2).1

/-- C9 counterexample: a `search_news` call whose response carries no
articles (an `Err` of the no-data kind) does *not* leave the cache
unchanged — lines 123–126 store the error dict — and a second call with
the same key inside the TTL serves the cached error even though a healthy
response is now available. -/
theorem C9_counterexample :
    (searchNews true [] "q" 6 0 7 0 300 .noArticles).1
      = .error "No search results available"
    ∧ (searchNews true [] "q" 6 0 7 0 300 .noArticles).2 ≠ []
    ∧ (searchNews true (searchNews true [] "q" 6 0 7 0 300 .noArticles).2
        "q" 6 0 7 10 300
        (.withArticles [{ title := "t", description := "", url := "u",
                          content := "", sentiment := "neutral" }])).1
      = .error "No search results available" := by
  refine ⟨rfl, ?_, ?_⟩
  · simp [searchNews, cacheGet, cacheSet, dictSet, dictLookup]
  · norm_num [searchNews, searchCacheKey, cacheGet, cacheSet, dictSet,
      dictLookup, List.find?]

/-- C9 (amended): in `search_news`, the not-configured return and the
exception path leave the cache unchanged, and every cache write stores
exactly the dict being returned — which is the parsed payload on success
but equally the `"No search results available"` error dict when the
response lacked articles; an `Err` of that kind is therefore cached and
served to later calls within the TTL. -/
theorem C9_theorem (hasKey : Bool) (c : Cache SearchResult) (query : String)
    (pageSize : ℕ) (fromDate toDate : ℤ) (now ttl : ℚ) (http : HttpOutcome) :
    (∀ m, http = HttpOutcome.exn m →
      (searchNews hasKey c query pageSize fromDate toDate now ttl http).2 = c)
    ∧ (hasKey = false →
      (searchNews hasKey c query pageSize fromDate toDate now ttl http).2 = c)
    ∧ ((searchNews hasKey c query pageSize fromDate toDate now ttl http).2 = c
       ∨ (searchNews hasKey c query pageSize fromDate toDate now ttl http).2
           = cacheSet c (searchCacheKey query pageSize fromDate toDate)
               (searchNews hasKey c query pageSize fromDate toDate now ttl http).1
               now ttl) := by
  cases hasKey with
  | false => exact ⟨fun m _ => rfl, fun _ => rfl, Or.inl rfl⟩
  | true =>
    refine ⟨?_, ?_, ?_⟩
    · intro m hm
      subst hm
      cases hcg : cacheGet c (searchCacheKey query pageSize fromDate toDate) now with
      | some d => simp [searchNews, hcg]
      | none => simp [searchNews, hcg]
    · intro h
      exact absurd h (by decide)
    · cases hcg : cacheGet c (searchCacheKey query pageSize fromDate toDate) now with
      | some d => exact Or.inl (by simp [searchNews, hcg])
      | none =>
        cases http with
        | withArticles arts => exact Or.inr (by simp [searchNews, hcg])
        | noArticles => exact Or.inr (by simp [searchNews, hcg])
        | exn m => exact Or.inl (by simp [searchNews, hcg])

/-- C9 witness: the amended no-write laws applied at an exception-path call. -/
theorem C9_witness :
    (searchNews true [] "q" 6 0 7 0 300 (.exn "boom")).2 = [] :=
  (C9_theorem true [] "q" 6 0 7 0 300 (.exn "boom")).1 "boom" rfl

/-- The limiter's window start never moves backwards. -/
theorem rateLimitCheck_ws_mono (limit : ℕ) (s : LimiterState) (now : ℚ) :
    s.windowStart ≤ (rateLimitCheck limit s now).1.windowStart := by
  unfold rateLimitCheck
  split_ifs with h1 h2 h3 <;> simp <;> linarith

/-- With a positive limit and an in-bounds count, one `_rate_limit_check`
call behaves in exactly one of three ways: a same-window increment, a
window reset (the old window had elapsed), or a sleep to the window's end;
in the latter two the new window start strictly exceeds the old. -/
theorem rateLimitCheck_cases (limit : ℕ) (hlim : 1 ≤ limit) (s : LimiterState)
    (now : ℚ) (hcnt : s.count ≤ limit) :
    ((rateLimitCheck limit s now).1.windowStart = s.windowStart
      ∧ (rateLimitCheck limit s now).1.count = s.count + 1
      ∧ s.count < limit)
    ∨ ((rateLimitCheck limit s now).1.windowStart = now
      ∧ (rateLimitCheck limit s now).1.count = 1
      ∧ s.windowStart + 60 ≤ now)
    ∨ ((rateLimitCheck limit s now).1.windowStart = s.windowStart + 60
      ∧ (rateLimitCheck limit s now).1.count = 1
      ∧ s.count = limit) := by
  unfold rateLimitCheck
  split_ifs with h1 h2 h3
  · omega
  · right; left
    exact ⟨rfl, rfl, by linarith⟩
  · right; right
    exact ⟨rfl, rfl, by omega⟩
  · exfalso
    push_neg at h1 h3
    linarith
  · left
    exact ⟨rfl, rfl, by omega⟩

/-- Every completion recorded by a run is tagged with a window start no
earlier than the starting state's. -/
theorem runAcquires_tags_ge (limit : ℕ) :
    ∀ (times : List ℚ) (s : LimiterState) (p : ℚ × ℚ),
      p ∈ runAcquires limit s times → s.windowStart ≤ p.2 := by
  intro times
  induction times with
  | nil => intro s p hp; cases hp
  | cons t ts ih =>
    intro s p hp
    have hmono := rateLimitCheck_ws_mono limit s t
    simp only [runAcquires, List.mem_cons] at hp
    rcases hp with h1 | h2
    · rw [h1]; exact hmono
    · exact le_trans hmono (ih _ p h2)

/-- The per-epoch bound: starting from count `c`, an epoch identified by
its window-start value `w` accumulates at most `limit` completions, with
the current epoch already holding `c` of its budget. -/
theorem runAcquires_epoch_bound (limit : ℕ) (hlim : 1 ≤ limit) :
    ∀ (times : List ℚ) (s : LimiterState), s.count ≤ limit →
      ∀ w : ℚ,
        ((runAcquires limit s times).filter (fun p => decide (p.2 = w))).length
          ≤ if w = s.windowStart then limit - s.count else limit := by
  intro times
  induction times with
  | nil =>
    intro s hcnt w
    simp only [runAcquires, List.filter_nil, List.length_nil]
    split_ifs <;> omega
  | cons t ts ih =>
    intro s hcnt w
    have htags : ∀ p ∈ runAcquires limit (rateLimitCheck limit s t).1 ts,
        (rateLimitCheck limit s t).1.windowStart ≤ p.2 :=
      fun p hp => runAcquires_tags_ge limit ts _ p hp
    rcases rateLimitCheck_cases limit hlim s t hcnt with
      ⟨hws, hct, hlt⟩ | ⟨hws, hct, hge⟩ | ⟨hws, hct, hceq⟩
    · -- same-window increment
      have hrest := ih (rateLimitCheck limit s t).1 (by omega) w
      simp only [runAcquires, List.filter_cons]
      by_cases hw : (rateLimitCheck limit s t).1.windowStart = w
      · rw [if_pos (by simp [hw]), List.length_cons]
        have hww : w = s.windowStart := by rw [← hw, hws]
        rw [if_pos hww]
        rw [if_pos (by rw [← hw])] at hrest
        omega
      · rw [if_neg (by simp [hw])]
        have hwn : ¬ w = s.windowStart := by
          intro hww
          exact hw (by rw [hws, hww])
        rw [if_neg hwn]
        rw [if_neg (fun hww => hw hww.symm)] at hrest
        exact hrest
    · -- window reset
      have hrest := ih (rateLimitCheck limit s t).1 (by omega) w
      have hstrict : s.windowStart < (rateLimitCheck limit s t).1.windowStart := by
        rw [hws]; linarith
      simp only [runAcquires, List.filter_cons]
      by_cases hw : (rateLimitCheck limit s t).1.windowStart = w
      · rw [if_pos (by simp [hw]), List.length_cons]
        have hwn : ¬ w = s.windowStart := by
          intro hww
          rw [hww] at hw
          exact absurd (hw ▸ hstrict) (lt_irrefl _)
        rw [if_neg hwn]
        rw [if_pos hw.symm, hct] at hrest
        omega
      · rw [if_neg (by simp [hw])]
        by_cases hwn : w = s.windowStart
        · have hzero : (runAcquires limit (rateLimitCheck limit s t).1 ts).filter
              (fun p => decide (p.2 = w)) = [] := by
            rw [List.filter_eq_nil_iff]
            intro p hp
            have := htags p hp
            simp only [decide_eq_true_eq]
            intro hpw
            rw [hpw, hwn] at this
            linarith
          rw [hzero]
          simp
        · rw [if_neg hwn]
          rw [if_neg (fun hww => hw hww.symm)] at hrest
          exact hrest
    · -- sleep to window end
      have hrest := ih (rateLimitCheck limit s t).1 (by omega) w
      have hstrict : s.windowStart < (rateLimitCheck limit s t).1.windowStart := by
        rw [hws]; linarith
      simp only [runAcquires, List.filter_cons]
      by_cases hw : (rateLimitCheck limit s t).1.windowStart = w
      · rw [if_pos (by simp [hw]), List.length_cons]
        have hwn : ¬ w = s.windowStart := by
          intro hww
          rw [hww] at hw
          exact absurd (hw ▸ hstrict) (lt_irrefl _)
        rw [if_neg hwn]
        rw [if_pos hw.symm, hct] at hrest
        omega
      · rw [if_neg (by simp [hw])]
        by_cases hwn : w = s.windowStart
        · have hzero : (runAcquires limit (rateLimitCheck limit s t).1 ts).filter
              (fun p => decide (p.2 = w)) = [] := by
            rw [List.filter_eq_nil_iff]
            intro p hp
            have := htags p hp
            simp only [decide_eq_true_eq]
            intro hpw
            rw [hpw, hwn] at this
            linarith
          rw [hzero]
          simp
        · rw [if_neg hwn]
          rw [if_neg (fun hww => hw hww.symm)] at hrest
          exact hrest

/-- C6 counterexample: the limiter is a *fixed*-window counter, not a
sliding-window one.  With limit 2, calls at wall times 0, 59, 61 and 62
are all admissible (each call starts no earlier than the previous call's
completion) and all complete immediately — the window resets at time 61 —
so the three completions 59, 61 and 62 fall inside the sliding 60-second
window (58.5, 118.5], exceeding the limit of 2. -/
theorem C6_counterexample :
    (runAcquires 2 { windowStart := 0, count := 0 } [0, 59, 61, 62]).map Prod.fst
      = [0, 59, 61, 62]
    ∧ (((runAcquires 2 { windowStart := 0, count := 0 } [0, 59, 61, 62]).map
          Prod.fst).filter (fun c => decide (117/2 < c ∧ c ≤ 117/2 + 60))).length = 3
    ∧ 2 < 3 := by
  refine ⟨?_, ?_, by omega⟩
  · norm_num [runAcquires, rateLimitCheck]
  · norm_num [runAcquires, rateLimitCheck, List.filter]

/-- C6 (amended): the guarantee that holds is per fixed window, not per
sliding window: in any run of `_rate_limit_check` calls started with a
fresh count, at most `limit` calls are counted against any one window
(identified by its `window_start` value); across a window boundary a
60-second sliding interval can see up to twice that many completions, as
the counterexample shows. -/
theorem C6_theorem (limit : ℕ) (hlim : 1 ≤ limit) (s : LimiterState)
    (h0 : s.count = 0) (times : List ℚ) (w : ℚ) :
    ((runAcquires limit s times).filter (fun p => decide (p.2 = w))).length
      ≤ limit := by
  have h := runAcquires_epoch_bound limit hlim times s (by omega) w
  split_ifs at h with hw
  · omega
  · exact h

/-- C6 witness: the per-window bound at limit 1 for a single immediate
call. -/
theorem C6_witness :
    ((runAcquires 1 { windowStart := 0, count := 0 } [0]).filter
      (fun p => decide (p.2 = 0))).length ≤ 1 :=
  C6_theorem 1 (by omega) { windowStart := 0, count := 0 } rfl [0] 0

end WealthSpec
